import Mathlib

/-!
Verification of the StreamBot playback-queue orchestrator (`src/index.ts`).

The embedding below translates the queue state, the command handlers
(`add`, `batch`, `remove`, `stop`) and the playback loop (`playQueue`,
`playVideoWithConnection`) into pure Lean functions.  JavaScript objects
shared between `videoQueue` and `originalQueue` are modelled by a heap of
items (`SysState.heap`); the two queues hold heap indices, so the in-place
mutation `next.link = localPath` performed by the loop is visible through
both queues, exactly as in the source.  External effects (joining voice,
`preDownloadVideo`, `streamLivestreamVideo`, timers) are resolved by an
environment (`RunEnv` / `IterEnv`) that fixes the outcome of each awaited
call and says at which suspension points a `stop` command arrives.
-/

namespace StreamBot

/-- A queue entry as created by the `add` handler: `{ uid, link }`. -/
structure Item where
  uid : String
  link : String
  deriving DecidableEq, Repr

/-- Placeholder item used for out-of-range heap lookups (never reached on
well-formed states; mirrors JS `undefined` handling). -/
def defaultItem : Item := ⟨"", ""⟩

/-- The module-level mutable state of `index.ts`: the two queues (as heap
indices), the loop/stop/playing flags, the voice-connection status and the
per-item transmission indicators. -/
structure SysState where
  heap : List Item
  videoQueue : List Nat
  originalQueue : List Nat
  loopEnabled : Bool
  isPlayingQueue : Bool
  stopRequested : Bool
  joined : Bool
  speaking : Bool
  videoStatus : Bool
  currentPlayback : Bool
  deriving DecidableEq, Repr

/-- Initial module state: empty queues, all flags down. -/
def initState : SysState :=
  { heap := [], videoQueue := [], originalQueue := [],
    loopEnabled := false, isPlayingQueue := false, stopRequested := false,
    joined := false, speaking := false, videoStatus := false,
    currentPlayback := false }

/-- `link.startsWith("http")` from the loop body, computed on the character
sequence of the string. -/
def isRemote (link : String) : Bool :=
  "http".data.isPrefixOf link.data

/-- The uid stored at heap index `i`. -/
def uidAt (s : SysState) (i : Nat) : String :=
  (s.heap.getD i defaultItem).uid

/-- The link stored at heap index `i`. -/
def linkAt (s : SysState) (i : Nat) : String :=
  (s.heap.getD i defaultItem).link

/-- The uids of the working queue (`videoQueue`), in order. -/
def pendingUids (s : SysState) : List String :=
  s.videoQueue.map (uidAt s)

/-- The uids of the replay template (`originalQueue`), in order. -/
def templateUids (s : SysState) : List String :=
  s.originalQueue.map (uidAt s)

/-- JS `Array.prototype.findIndex`, with `none` for `-1`. -/
def findIndex (p : α → Bool) : List α → Option Nat
  | [] => none
  | a :: l => if p a then some 0 else (findIndex p l).map (· + 1)

/-- `add` handler: builds `{uid, link}` and pushes the same object into both
`videoQueue` and `originalQueue` (here: allocates one heap cell and appends
its index to both queues). -/
def addCommand (uid link : String) (s : SysState) : SysState :=
  { s with heap := s.heap ++ [⟨uid, link⟩],
           videoQueue := s.videoQueue ++ [s.heap.length],
           originalQueue := s.originalQueue ++ [s.heap.length] }

/-- `batch` handler: one `add` per parsed line, in order. -/
def batchCommand (entries : List (String × String)) (s : SysState) : SysState :=
  entries.foldl (fun st e => addCommand e.1 e.2 st) s

/-- `cleanupStreamStatus()`: leaves voice and resets the joined flag. -/
def cleanupStreamStatus (s : SysState) : SysState :=
  { s with joined := false }

/-- `stop` handler: raises the stop flag, clears both queues and runs
`cleanupStreamStatus` (the cancellation signal to `currentPlayback` takes
effect when the in-flight playback settles, so the handle reference itself
is untouched here). -/
def stopCommand (s : SysState) : SysState :=
  cleanupStreamStatus
    { s with stopRequested := true, videoQueue := [], originalQueue := [] }

/-- Result of the `remove` handler. -/
inductive RemoveResult where
  | removed (it : Item)
  | notFound
  deriving DecidableEq, Repr

/-- `remove` handler: `findIndex` by uid in both queues; if either lookup
reports `-1` the command replies not-found and changes nothing, otherwise it
splices the found position out of each queue and reports the removed item. -/
def removeCommand (uid : String) (s : SysState) : SysState × RemoveResult :=
  match findIndex (fun i => uidAt s i == uid) s.videoQueue,
        findIndex (fun i => uidAt s i == uid) s.originalQueue with
  | some i, some j =>
      ({ s with videoQueue := s.videoQueue.eraseIdx i,
                originalQueue := s.originalQueue.eraseIdx j },
       .removed (s.heap.getD (s.videoQueue.getD i 0) defaultItem))
  | _, _ => (s, .notFound)

/-- Outcome of one `streamLivestreamVideo` call, as fixed by the
environment: normal completion, a provider-level streaming error, or the
cancellation signal raised by `stop`. -/
inductive PlayRes where
  | ok (msg : String)
  | providerError
  | canceled
  deriving DecidableEq, Repr

/-- How the `PCancelable` playback handle settles: the promise resolves
with a message, or rejects with a `CancelError`. -/
inductive Settle where
  | resolved (msg : String)
  | rejectedCancel
  deriving DecidableEq, Repr

/-- The executor of the `PCancelable` in `playVideoWithConnection`: a
provider error is caught and *resolved* as `"error skipped"` (the comment
in the source: skip the errored video without disconnecting); only
cancellation rejects. -/
def pcancelableRun : PlayRes → Settle
  | .ok m => .resolved m
  | .providerError => .resolved "error skipped"
  | .canceled => .rejectedCancel

/-- `playVideoWithConnection`: raises the speaking/video indicators and
records the in-flight handle, awaits settlement, and in the `finally` block
always lowers both indicators and nulls `currentPlayback`.  The outer
`catch` swallows `CancelError` (and merely logs anything else), so the call
never throws into the queue loop; the settlement value is returned for
observation. -/
def playVideoWithConnection (res : PlayRes) (s : SysState) : SysState × Settle :=
  let s1 := { s with speaking := true, videoStatus := true, currentPlayback := true }
  let settle := pcancelableRun res
  ({ s1 with speaking := false, videoStatus := false, currentPlayback := false },
   settle)

/-- Environment of one loop iteration: the result of a `preDownloadVideo`
call (`none` = the download rejects), the outcome of the transmission, and
whether a `stop` command is processed while the loop is suspended on the
download, the playback, or the cooldown timer. -/
structure IterEnv where
  fetch : Option String
  stopDuringFetch : Bool
  play : PlayRes
  stopDuringPlay : Bool
  stopDuringCooldown : Bool
  deriving Repr

/-- Environment of one `playQueue` run: whether session acquisition
(`joinVoice` + `createStream`) succeeds, whether a `stop` command arrives
while those calls are awaited, and the per-iteration environments (the
model's fuel). -/
structure RunEnv where
  joinOk : Bool
  stopDuringJoin : Bool
  iters : List IterEnv
  deriving Repr

/-- Observable events of a `playQueue` run. -/
inductive Ev where
  | acquired
  | acquireFailed
  | fetched (idx : Nat) (path : String)
  | fetchFailed (idx : Nat)
  | played (idx : Nat) (link : String)
  | released
  deriving DecidableEq, Repr

/-- Discriminator for transmission events. -/
def Ev.isPlayed : Ev → Bool
  | .played _ _ => true
  | _ => false

/-- Discriminator for session-acquisition events. -/
def Ev.isAcquire : Ev → Bool
  | .acquired => true
  | .acquireFailed => true
  | _ => false

/-- Exit path of the `while` loop (lines 233–235): `cleanupStreamStatus()`
then reset `isPlayingQueue` and `stopRequested`. -/
def loopExit (s : SysState) : SysState × List Ev :=
  ({ cleanupStreamStatus s with isPlayingQueue := false, stopRequested := false },
   [Ev.released])

/-- Body of the `while (!stopRequested)` loop of `playQueue`
(lines 206–231), entered after the stop-flag test: refill from
`originalQueue` when the queue is empty (or `break` when looping is off),
`shift` the front item, pre-download it when its link starts with `"http"`
(on failure log and `continue`; on success mutate the item's link in
place), re-check the stop flag (`break` if set), transmit via
`playVideoWithConnection`, cool down.  Returns the successor state, the
iteration's events, and whether the loop continues (`false` = `break`). -/
def loopIter (e : IterEnv) (s : SysState) : SysState × List Ev × Bool :=
  let s0 :=
    if s.videoQueue.isEmpty then
      if s.loopEnabled && !s.originalQueue.isEmpty then
        { s with videoQueue := s.originalQueue }
      else s
    else s
  match s0.videoQueue with
  | [] => (s0, [], false)
  | idx :: tl =>
    let s1 := { s0 with videoQueue := tl }
    let it := s1.heap.getD idx defaultItem
    if isRemote it.link then
      let s2 := if e.stopDuringFetch then stopCommand s1 else s1
      match e.fetch with
      | none => (s2, [.fetchFailed idx], true)
      | some lp =>
        let s3 := { s2 with heap := s2.heap.set idx ⟨it.uid, lp⟩ }
        if s3.stopRequested then (s3, [.fetched idx lp], false)
        else
          let s4 := (playVideoWithConnection e.play s3).1
          let s5 := if e.stopDuringPlay then stopCommand s4 else s4
          let s6 := if e.stopDuringCooldown then stopCommand s5 else s5
          (s6, [.fetched idx lp, .played idx lp], true)
    else
      if s1.stopRequested then (s1, [], false)
      else
        let s4 := (playVideoWithConnection e.play s1).1
        let s5 := if e.stopDuringPlay then stopCommand s4 else s4
        let s6 := if e.stopDuringCooldown then stopCommand s5 else s5
        (s6, [.played idx it.link], true)

/-- The `while (!stopRequested)` consumption loop of `playQueue`
(lines 205–232), one `IterEnv` consumed per iteration: test the stop flag,
run the body (`loopIter`), recurse while the body says `continue`; leaving
the loop runs the exit code (`loopExit`).  An exhausted environment list
returns the state as-is (the run is cut off, not exited). -/
def playLoop : List IterEnv → SysState → SysState × List Ev
  | [], s => (s, [])
  | e :: rest, s =>
    if s.stopRequested then loopExit s
    else
      match loopIter e s with
      | (s', evs, true) =>
        let r := playLoop rest s'
        (r.1, evs ++ r.2)
      | (s', evs, false) =>
        let r := loopExit s'
        (r.1, evs ++ r.2)

/-- `playQueue` (lines 187–236): single-flight guard, then raise
`isPlayingQueue` and clear `stopRequested`, then acquire the session —
`joinVoice` + `createStream` when not yet joined (setting `joined` after
both awaits, hence after any stop processed during them), `createStream`
alone otherwise.  Acquisition failure logs, lowers `isPlayingQueue` and
returns; success enters the consumption loop. -/
def playQueue (env : RunEnv) (s : SysState) : SysState × List Ev :=
  if s.isPlayingQueue then (s, [])
  else
    let s1 := { s with isPlayingQueue := true, stopRequested := false }
    if env.joinOk then
      let s2 := if env.stopDuringJoin then stopCommand s1 else s1
      let s3 := if s1.joined then s2 else { s2 with joined := true }
      let r := playLoop env.iters s3
      (r.1, .acquired :: r.2)
    else
      let s2 := if env.stopDuringJoin then stopCommand s1 else s1
      ({ s2 with isPlayingQueue := false }, [.acquireFailed])

/-- States reachable from the empty initial state by the queue-mutating
operations: `add` (and hence `batch`, which is a fold of `add`s), `remove`,
the loop's front `shift`, the loop's refill from `originalQueue`, and the
clearing performed by `stop`. -/
inductive Reach : SysState → Prop
  | init : Reach initState
  | add (uid link : String) {s : SysState} :
      Reach s → Reach (addCommand uid link s)
  | remove (uid : String) {s : SysState} :
      Reach s → Reach (removeCommand uid s).1
  | pop {s : SysState} :
      Reach s → Reach { s with videoQueue := s.videoQueue.tail }
  | refill {s : SysState} :
      Reach s → s.videoQueue = [] → s.loopEnabled = true →
      s.originalQueue ≠ [] → Reach { s with videoQueue := s.originalQueue }
  | clear {s : SysState} :
      Reach s → Reach (stopCommand s)

/-- Same reachable-state relation, restricted to runs in which every
generated uid is fresh (the spec treats `generateUID` collisions as
negligible and assumes ids unique within the template). -/
inductive ReachU : SysState → Prop
  | init : ReachU initState
  | add (uid link : String) {s : SysState} :
      ReachU s → uid ∉ s.heap.map Item.uid → ReachU (addCommand uid link s)
  | remove (uid : String) {s : SysState} :
      ReachU s → ReachU (removeCommand uid s).1
  | pop {s : SysState} :
      ReachU s → ReachU { s with videoQueue := s.videoQueue.tail }
  | refill {s : SysState} :
      ReachU s → s.videoQueue = [] → s.loopEnabled = true →
      s.originalQueue ≠ [] → ReachU { s with videoQueue := s.originalQueue }
  | clear {s : SysState} :
      ReachU s → ReachU (stopCommand s)

/-- Queue state holding two items A, B — the configuration of the
loop-replay law, with looping on and the loop running. -/
def twoItemState (uA lA uB lB : String) : SysState :=
  { initState with
      heap := [⟨uA, lA⟩, ⟨uB, lB⟩],
      videoQueue := [0, 1], originalQueue := [0, 1],
      loopEnabled := true, isPlayingQueue := true }

/-- Environment of the loop-replay run: the two downloads succeed with the
given local paths, every transmission completes, no stop arrives; four
iteration slots cover two passes over the two-item queue. -/
def replayEnv (pA pB : String) : List IterEnv :=
  [⟨some pA, false, .ok "finished", false, false⟩,
   ⟨some pB, false, .ok "finished", false, false⟩,
   ⟨none, false, .ok "finished", false, false⟩,
   ⟨none, false, .ok "finished", false, false⟩]

/-- One freshly enqueued local item, loop idle: the configuration of the
stop-before-playback scenario. -/
def oneItemState : SysState :=
  { initState with
      heap := [⟨"11111AAA", "vid.mp4"⟩],
      videoQueue := [0], originalQueue := [0] }

/-- Environment in which session acquisition succeeds but the operator's
`stop` is processed while `joinVoice`/`createStream` are awaited — i.e.
before playback of the enqueued item begins. -/
def stopEarlyEnv : RunEnv :=
  { joinOk := true, stopDuringJoin := true,
    iters := [⟨none, false, .ok "finished", false, false⟩] }

/-! ### Helper lemmas -/

theorem findIndex_eq_none_iff (p : α → Bool) (l : List α) :
    findIndex p l = none ↔ ∀ a ∈ l, p a = false := by
  induction l with
  | nil => simp [findIndex]
  | cons a t ih =>
    cases h : p a with
    | true => simp [findIndex, h]
    | false => simp [findIndex, h, Option.map_eq_none', ih]

theorem findIndex_getD (p : α → Bool) (d : α) :
    ∀ (l : List α) (i : Nat), findIndex p l = some i → p (l.getD i d) = true := by
  intro l
  induction l with
  | nil => intro i h; simp [findIndex] at h
  | cons a t ih =>
    intro i h
    cases hpa : p a with
    | true =>
      simp [findIndex, hpa] at h
      simp [← h, hpa]
    | false =>
      simp [findIndex, hpa] at h
      obtain ⟨j, hj, hji⟩ := h
      cases hji
      simpa using ih j hj

theorem eraseIdx_findIndex_eq_eraseP (p : α → Bool) :
    ∀ (l : List α) (i : Nat), findIndex p l = some i →
      l.eraseIdx i = l.eraseP p := by
  intro l
  induction l with
  | nil => intro i h; simp [findIndex] at h
  | cons a t ih =>
    intro i h
    cases hpa : p a with
    | true =>
      simp [findIndex, hpa] at h
      simp [← h, List.eraseP_cons, hpa]
    | false =>
      simp [findIndex, hpa] at h
      obtain ⟨j, hj, hji⟩ := h
      cases hji
      simp [List.eraseP_cons, hpa, ih j hj]

/-! ### C1: single-flight guard -/

/-- C1.  Single-flight guarantee: when the consumption loop is already
active (`isPlayingQueue` is set), `playQueue` returns immediately, leaving
the state unchanged and performing no observable action, so a second
concurrent consumption loop is never started. -/
theorem playQueue_single_flight (env : RunEnv) (s : SysState)
    (h : s.isPlayingQueue = true) :
    playQueue env s = (s, []) := by
  simp [playQueue, h]

/-- Witness for C1 at a concrete already-running state. -/
theorem playQueue_single_flight_witness :
    playQueue ⟨true, false, []⟩ { initState with isPlayingQueue := true }
      = ({ initState with isPlayingQueue := true }, []) :=
  playQueue_single_flight ⟨true, false, []⟩
    { initState with isPlayingQueue := true } rfl

/-! ### C8: idempotence of stop -/

/-- C8.  Idempotence of `stop`: a second `stop` changes nothing over the
first; after a `stop` both queues are empty and the voice connection is
released; the handler itself never flips `isPlayingQueue`, so stopping when
already idle keeps the system idle; from an idle empty state the only
effect is raising the (harmless) stop flag, which the loop clears; and any
running consumption loop observes the flag at its next check and exits with
`isPlayingQueue` lowered and the queues still empty. -/
theorem stop_idempotent (s : SysState) :
    stopCommand (stopCommand s) = stopCommand s
    ∧ (stopCommand s).videoQueue = [] ∧ (stopCommand s).originalQueue = []
    ∧ (stopCommand s).joined = false
    ∧ (stopCommand s).isPlayingQueue = s.isPlayingQueue
    ∧ (s.videoQueue = [] → s.originalQueue = [] → s.joined = false →
        stopCommand s = { s with stopRequested := true })
    ∧ (∀ (e : IterEnv) (rest : List IterEnv),
        (playLoop (e :: rest) (stopCommand s)).1.isPlayingQueue = false
        ∧ (playLoop (e :: rest) (stopCommand s)).1.videoQueue = []
        ∧ (playLoop (e :: rest) (stopCommand s)).1.originalQueue = []) := by
  refine ⟨rfl, rfl, rfl, rfl, rfl, ?_, ?_⟩
  · intro h1 h2 h3
    cases s
    simp_all [stopCommand, cleanupStreamStatus]
  · intro e rest
    simp [playLoop, stopCommand, cleanupStreamStatus, loopExit]

/-- Witness for C8 at a concrete idle state. -/
theorem stop_idempotent_witness :
    stopCommand initState = { initState with stopRequested := true }
    ∧ (playLoop [⟨none, false, .ok "x", false, false⟩] (stopCommand initState)).1.isPlayingQueue
        = false :=
  ⟨(stop_idempotent initState).2.2.2.2.2.1 rfl rfl rfl,
   ((stop_idempotent initState).2.2.2.2.2.2 ⟨none, false, .ok "x", false, false⟩ []).1⟩

/-! ### C10: removal of an already-popped item -/

/-- C10.  Once an item has been popped from `videoQueue` (so its uid no
longer occurs among the pending uids), `remove` with that uid replies
not-found and leaves the state completely unchanged — presence in both
queues is required — and the uid, still present in the template, survives
the call (so the item replays on a loop refill). -/
theorem removeById_popped_notFound (s : SysState) (uid : String)
    (h : uid ∉ pendingUids s) :
    removeCommand uid s = (s, .notFound)
    ∧ (uid ∈ templateUids s → uid ∈ templateUids (removeCommand uid s).1) := by
  have hnone : findIndex (fun i => uidAt s i == uid) s.videoQueue = none := by
    rw [findIndex_eq_none_iff]
    intro i hi
    by_contra hcon
    exact h (List.mem_map.mpr ⟨i, hi, by simpa using hcon⟩)
  have hmain : removeCommand uid s = (s, .notFound) := by
    unfold removeCommand
    rw [hnone]
  exact ⟨hmain, fun ht => by rw [hmain]; exact ht⟩

/-- Witness for C10: the single item has been popped (pending empty,
template still holds it); removal reports not-found and changes nothing. -/
theorem removeById_popped_notFound_witness :
    removeCommand "11111AAA" { oneItemState with videoQueue := [] }
      = ({ oneItemState with videoQueue := [] }, .notFound)
    ∧ ("11111AAA" ∈ templateUids
        (removeCommand "11111AAA" { oneItemState with videoQueue := [] }).1) := by
  have h := removeById_popped_notFound { oneItemState with videoQueue := [] }
    "11111AAA" (by simp [pendingUids, oneItemState, initState])
  exact ⟨h.1, h.2 (by simp [templateUids, oneItemState, initState, uidAt, defaultItem])⟩

/-! ### C7: removeById correctness and atomicity -/

/-- C7.  `remove` by uid: when the uid occurs in both the pending queue and
the template, the handler removes exactly the first matching entry from
each queue (`eraseP`), touches nothing else (the heap is unchanged), and
reports the removed item, whose uid is the requested one; when the uid is
absent from either queue, it reports not-found and the whole state is
unchanged. -/
theorem removeById_spec (s : SysState) (uid : String) :
    (uid ∈ pendingUids s → uid ∈ templateUids s →
      (∃ it : Item, (removeCommand uid s).2 = .removed it ∧ it.uid = uid)
      ∧ (removeCommand uid s).1.videoQueue
          = s.videoQueue.eraseP (fun i => uidAt s i == uid)
      ∧ (removeCommand uid s).1.originalQueue
          = s.originalQueue.eraseP (fun i => uidAt s i == uid)
      ∧ (removeCommand uid s).1.heap = s.heap)
    ∧ ((uid ∉ pendingUids s ∨ uid ∉ templateUids s) →
      removeCommand uid s = (s, .notFound)) := by
  constructor
  · intro hp ht
    have hpi : findIndex (fun i => uidAt s i == uid) s.videoQueue ≠ none := by
      rw [Ne, findIndex_eq_none_iff]
      obtain ⟨i, hi, hui⟩ := List.mem_map.mp hp
      intro hall
      have := hall i hi
      simp [hui] at this
    have hti : findIndex (fun i => uidAt s i == uid) s.originalQueue ≠ none := by
      rw [Ne, findIndex_eq_none_iff]
      obtain ⟨i, hi, hui⟩ := List.mem_map.mp ht
      intro hall
      have := hall i hi
      simp [hui] at this
    obtain ⟨i, hif⟩ := Option.ne_none_iff_exists'.mp hpi
    obtain ⟨j, hjf⟩ := Option.ne_none_iff_exists'.mp hti
    have hremove :
        removeCommand uid s
          = ({ s with videoQueue := s.videoQueue.eraseIdx i,
                      originalQueue := s.originalQueue.eraseIdx j },
             .removed (s.heap.getD (s.videoQueue.getD i 0) defaultItem)) := by
      unfold removeCommand
      rw [hif, hjf]
    refine ⟨⟨s.heap.getD (s.videoQueue.getD i 0) defaultItem, ?_, ?_⟩, ?_, ?_, ?_⟩
    · rw [hremove]
    · have := findIndex_getD (fun i => uidAt s i == uid) 0 s.videoQueue i hif
      simpa [uidAt] using this
    · rw [hremove]
      exact eraseIdx_findIndex_eq_eraseP _ _ _ hif
    · rw [hremove]
      exact eraseIdx_findIndex_eq_eraseP _ _ _ hjf
    · rw [hremove]
  · intro h
    rcases h with h | h
    · have hnone : findIndex (fun i => uidAt s i == uid) s.videoQueue = none := by
        rw [findIndex_eq_none_iff]
        intro i hi
        by_contra hcon
        exact h (List.mem_map.mpr ⟨i, hi, by simpa using hcon⟩)
      unfold removeCommand
      rw [hnone]
    · have hnone : findIndex (fun i => uidAt s i == uid) s.originalQueue = none := by
        rw [findIndex_eq_none_iff]
        intro i hi
        by_contra hcon
        exact h (List.mem_map.mpr ⟨i, hi, by simpa using hcon⟩)
      unfold removeCommand
      rw [hnone]
      rcases findIndex (fun i => uidAt s i == uid) s.videoQueue with _ | i <;> rfl

/-- Witness for C7: removing the present uid from a one-item queue empties
both queues and reports the item; removing an absent uid is a recorded
no-op. -/
theorem removeById_spec_witness :
    (removeCommand "11111AAA" oneItemState).1.videoQueue = []
    ∧ (removeCommand "11111AAA" oneItemState).1.originalQueue = []
    ∧ (∃ it : Item, (removeCommand "11111AAA" oneItemState).2 = .removed it
        ∧ it.uid = "11111AAA")
    ∧ removeCommand "ZZZZZ" oneItemState = (oneItemState, .notFound) := by
  have hp : "11111AAA" ∈ pendingUids oneItemState := by
    simp [pendingUids, oneItemState, initState, uidAt, defaultItem]
  have ht : "11111AAA" ∈ templateUids oneItemState := by
    simp [templateUids, oneItemState, initState, uidAt, defaultItem]
  have h1 := (removeById_spec oneItemState "11111AAA").1 hp ht
  have h2 := (removeById_spec oneItemState "ZZZZZ").2
    (Or.inl (by simp [pendingUids, oneItemState, initState, uidAt, defaultItem]))
  refine ⟨?_, ?_, h1.1, h2⟩
  · rw [h1.2.1]; rfl
  · rw [h1.2.2.1]; rfl

/-! ### C2: skip-and-continue on fetch failure -/

/-- C2.  Skip-and-continue: when the popped front item is remote (link
starts with `"http"`) and its pre-download fails, the iteration emits only
a fetch-failure event and continues as the loop on the remaining
environment from the state whose pending queue has lost the front item —
no play event, no loop exit — while the template (and hence its uid list)
is untouched, so the failed item is excluded from a later pass only if
removed by id. -/
theorem fetch_fail_skip (e : IterEnv) (rest : List IterEnv) (s : SysState)
    (idx : Nat) (tl : List Nat)
    (hq : s.videoQueue = idx :: tl)
    (hstop : s.stopRequested = false)
    (hhttp : isRemote (linkAt s idx) = true)
    (hfetch : e.fetch = none)
    (hns : e.stopDuringFetch = false) :
    playLoop (e :: rest) s
      = ((playLoop rest { s with videoQueue := tl }).1,
         .fetchFailed idx :: (playLoop rest { s with videoQueue := tl }).2)
    ∧ ({ s with videoQueue := tl } : SysState).originalQueue = s.originalQueue
    ∧ templateUids { s with videoQueue := tl } = templateUids s := by
  refine ⟨?_, rfl, rfl⟩
  have hhttp' : isRemote (s.heap[idx]?.getD defaultItem).link = true := by
    simpa [linkAt, List.getD_eq_getElem?_getD] using hhttp
  have hiter : loopIter e s = ({ s with videoQueue := tl }, [.fetchFailed idx], true) := by
    simp [loopIter, hq, hhttp', hfetch, hns]
  conv_lhs => rw [playLoop]
  simp [hstop, hiter]

/-- Witness for C2: a two-item queue whose remote front item fails to
download; the loop skips it and plays the second item, and the first item
is still in the template afterwards. -/
theorem fetch_fail_skip_witness :
    (playLoop
        [⟨none, false, .ok "finished", false, false⟩,
         ⟨none, false, .ok "finished", false, false⟩]
        { twoItemState "A1" "http://a" "B1" "b.mp4" with loopEnabled := false }).2
      = [.fetchFailed 0, .played 1 "b.mp4"] := by
  have h := fetch_fail_skip
    ⟨none, false, .ok "finished", false, false⟩
    [⟨none, false, .ok "finished", false, false⟩]
    { twoItemState "A1" "http://a" "B1" "b.mp4" with loopEnabled := false }
    0 [1] rfl rfl (by decide) rfl rfl
  rw [h.1]
  decide

/-! ### C3: session acquisition is once-per-run and loop-fatal -/

theorem iterRes_events_ite (c : Prop) [Decidable c]
    (a b : SysState × List Ev × Bool) :
    (ite c a b).2.1 = ite c a.2.1 b.2.1 := by
  split <;> rfl

theorem all_ite (c : Prop) [Decidable c] (l₁ l₂ : List Ev) (f : Ev → Bool) :
    (ite c l₁ l₂).all f = ite c (l₁.all f) (l₂.all f) := by
  split <;> rfl

theorem loopIter_trace_all (e : IterEnv) (s : SysState) :
    ((loopIter e s).2.1.all fun ev => !ev.isAcquire) = true := by
  rcases hvq : s.videoQueue with _ | ⟨idx, tl⟩ <;>
    rcases hoq : s.originalQueue with _ | ⟨oidx, otl⟩ <;>
    rcases hle : s.loopEnabled <;>
    rcases hf : e.fetch with _ | lp <;>
    simp [loopIter, hvq, hoq, hle, hf, Ev.isAcquire, iterRes_events_ite, all_ite,
      List.all_cons, ite_self]

theorem playLoop_trace_all (envs : List IterEnv) :
    ∀ s : SysState, ((playLoop envs s).2.all fun ev => !ev.isAcquire) = true := by
  induction envs with
  | nil => intro s; simp [playLoop]
  | cons e rest ih =>
    intro s
    rw [playLoop]
    split
    · simp [loopExit, Ev.isAcquire]
    · rcases h : loopIter e s with ⟨s', evs, b⟩
      have hevs : evs.all (fun ev => !ev.isAcquire) = true := by
        have hall := loopIter_trace_all e s
        rw [h] at hall
        exact hall
      cases b
      · simp only [h]
        simp [loopExit, List.all_append, hevs, Ev.isAcquire]
        intro x hx
        have hx2 := List.all_eq_true.mp hevs x hx
        simpa [Ev.isAcquire] using hx2
      · simp only [h]
        simp [List.all_append, hevs, ih s']

theorem playLoop_no_acquire (envs : List IterEnv) (s : SysState) (ev : Ev)
    (hev : ev ∈ (playLoop envs s).2) : ev.isAcquire = false := by
  have h := playLoop_trace_all envs s
  rw [List.all_eq_true] at h
  simpa using h ev hev

/-- C3.  Session acquisition: when the loop is not already running and
`joinVoice`/`createStream` fails (with no stop interleaved), `playQueue`
aborts at once — the run's whole effect is clearing the stop flag, and its
trace is the single acquisition-failure event, so no item is fetched or
played and both queues survive untouched; moreover any run attempts
acquisition at most once (the loop itself never emits acquisition events),
so a successful acquisition on the first iteration is kept for all later
items. -/
theorem session_acquisition_fatal (env : RunEnv) (s : SysState) :
    (s.isPlayingQueue = false → env.joinOk = false → env.stopDuringJoin = false →
      playQueue env s = ({ s with stopRequested := false }, [.acquireFailed]))
    ∧ (playQueue env s).2.countP Ev.isAcquire ≤ 1 := by
  constructor
  · intro h1 h2 h3
    cases s
    simp_all [playQueue]
  · by_cases h1 : s.isPlayingQueue = true
    · simp [playQueue, h1]
    · simp only [Bool.not_eq_true] at h1
      by_cases h2 : env.joinOk = true
      · have hloop := playLoop_no_acquire env.iters
        simp only [playQueue, h1, h2, Bool.false_eq_true, if_false, if_true]
        rw [List.countP_cons_of_pos _ _ (by rfl)]
        have hzero :
            ∀ s' : SysState, (playLoop env.iters s').2.countP Ev.isAcquire = 0 := by
          intro s'
          exact List.countP_eq_zero.mpr (fun ev hev => by
            simp [playLoop_no_acquire env.iters s' ev hev])
        split <;> rw [hzero]
      · simp only [Bool.not_eq_true] at h2
        have htr : (playQueue env s).2 = [.acquireFailed] := by
          simp [playQueue, h1, h2]
        rw [htr]
        decide

/-- Witness for C3: a failing acquisition on a one-item queue returns at
once with only the failure event. -/
theorem session_acquisition_fatal_witness :
    playQueue ⟨false, false, [⟨none, false, .ok "finished", false, false⟩]⟩ oneItemState
      = ({ oneItemState with stopRequested := false }, [.acquireFailed])
    ∧ (playQueue ⟨false, false, [⟨none, false, .ok "finished", false, false⟩]⟩
        oneItemState).2.countP Ev.isAcquire ≤ 1 :=
  ⟨(session_acquisition_fatal
      ⟨false, false, [⟨none, false, .ok "finished", false, false⟩]⟩ oneItemState).1
      rfl rfl rfl,
   (session_acquisition_fatal
      ⟨false, false, [⟨none, false, .ok "finished", false, false⟩]⟩ oneItemState).2⟩

/-! ### C9: transmission faults are skips, not loop failures -/

/-- C9.  Transmission faults: for every settlement outcome the per-item
indicators (speaking, video status, current-playback reference) are reset
by the `finally` block; a provider-level streaming error makes the playback
handle *resolve* with the skipped status `"error skipped"` instead of
rejecting; and an iteration whose transmission raises a provider error
continues the loop into the next item — the queue advances by one, the
session flag is untouched by the successor state, and the iteration's only
event is the play event, never an exit. -/
theorem transmission_fault_skip (s : SysState) (res : PlayRes) :
    ((playVideoWithConnection res s).1.speaking = false
      ∧ (playVideoWithConnection res s).1.videoStatus = false
      ∧ (playVideoWithConnection res s).1.currentPlayback = false)
    ∧ (playVideoWithConnection .providerError s).2 = .resolved "error skipped"
    ∧ (∀ (e : IterEnv) (rest : List IterEnv) (idx : Nat) (tl : List Nat),
        s.videoQueue = idx :: tl → s.stopRequested = false →
        isRemote (linkAt s idx) = false →
        e.play = .providerError →
        e.stopDuringPlay = false → e.stopDuringCooldown = false →
        playLoop (e :: rest) s
          = ((playLoop rest { s with videoQueue := tl, speaking := false, videoStatus := false, currentPlayback := false }).1,
             .played idx (linkAt s idx)
               :: (playLoop rest { s with videoQueue := tl, speaking := false, videoStatus := false, currentPlayback := false }).2)
        ∧ ({ s with videoQueue := tl, speaking := false, videoStatus := false, currentPlayback := false } : SysState).joined
            = s.joined) := by
  refine ⟨⟨rfl, rfl, rfl⟩, rfl, ?_⟩
  intro e rest idx tl hq hstop hrem hplay hsp hsc
  have hrem' : isRemote (s.heap[idx]?.getD defaultItem).link = false := by
    simpa [linkAt, List.getD_eq_getElem?_getD] using hrem
  have hiter : loopIter e s
      = ({ s with videoQueue := tl, speaking := false, videoStatus := false, currentPlayback := false },
         [.played idx (linkAt s idx)], true) := by
    simp [loopIter, hq, hrem', hstop, hsp, hsc, playVideoWithConnection,
      linkAt, List.getD_eq_getElem?_getD]
  refine ⟨?_, rfl⟩
  conv_lhs => rw [playLoop]
  simp [hstop, hiter]

/-- Witness for C9 at a concrete one-item state whose transmission errors:
the loop emits the play event and carries on with the session flag kept. -/
theorem transmission_fault_skip_witness :
    (playVideoWithConnection .providerError oneItemState).2
      = .resolved "error skipped"
    ∧ playLoop [⟨none, false, .providerError, false, false⟩]
        { oneItemState with joined := true }
      = (({ oneItemState with joined := true, videoQueue := [] } : SysState),
         [.played 0 "vid.mp4"]) := by
  have h := (transmission_fault_skip { oneItemState with joined := true }
    .providerError).2.2 ⟨none, false, .providerError, false, false⟩ [] 0 []
    rfl rfl (by decide) rfl rfl rfl
  refine ⟨(transmission_fault_skip oneItemState .providerError).2.1, ?_⟩
  rw [h.1]
  decide

/-! ### C5: stop before playback begins -/

/-- C5, counterexample.  A run started by enqueuing one item, with the
`stop` command processed while the session-acquisition awaits are pending —
i.e. before playback of the item begins.  The loop does exit to Idle
without transmitting anything, but the claim's "without ever acquiring a
transmission session" is false at this input: the trace records the
acquisition, because `playQueue` calls `joinVoice`/`createStream` before it
ever consults the queue or the stop flag (and line 190 even clears a stop
flag raised earlier). -/
theorem stop_before_playback_cex :
    ((playQueue stopEarlyEnv oneItemState).2.contains .acquired = true)
    ∧ ((playQueue stopEarlyEnv oneItemState).2.all (fun ev => !ev.isPlayed) = true)
    ∧ (playQueue stopEarlyEnv oneItemState).1.isPlayingQueue = false := by
  decide

/-- C5, amended.  When the loop is idle and a `stop` arrives during session
acquisition (before playback begins), the run exits to Idle — loop flag
down, both queues cleared, voice left — without transmitting any item; but
the transmission session *is* acquired first and then released: the whole
trace is acquisition followed by release. -/
theorem stop_before_playback_amended (s : SysState) (env : RunEnv)
    (e : IterEnv) (rest : List IterEnv)
    (h1 : s.isPlayingQueue = false) (h2 : env.joinOk = true)
    (h3 : env.stopDuringJoin = true) (h4 : env.iters = e :: rest) :
    (playQueue env s).2 = [.acquired, .released]
    ∧ (playQueue env s).1.isPlayingQueue = false
    ∧ (playQueue env s).1.videoQueue = []
    ∧ (playQueue env s).1.originalQueue = []
    ∧ (playQueue env s).1.joined = false := by
  have hq : playQueue env s
      = (let s1 := { s with isPlayingQueue := true, stopRequested := false }
         let s2 := stopCommand s1
         let s3 := if s1.joined then s2 else { s2 with joined := true }
         let r := playLoop env.iters s3
         (r.1, .acquired :: r.2)) := by
    simp [playQueue, h1, h2, h3]
  by_cases hj : s.joined = true
  · simp only [hq, h4, hj] at *
    simp [playLoop, stopCommand, cleanupStreamStatus, loopExit]
  · simp only [Bool.not_eq_true] at hj
    simp only [hq, h4, hj] at *
    simp [playLoop, stopCommand, cleanupStreamStatus, loopExit]

/-- Witness for C5's amended statement at the concrete one-item scenario. -/
theorem stop_before_playback_amended_witness :
    (playQueue stopEarlyEnv oneItemState).2 = [.acquired, .released]
    ∧ (playQueue stopEarlyEnv oneItemState).1.videoQueue = [] := by
  have h := stop_before_playback_amended oneItemState stopEarlyEnv
    ⟨none, false, .ok "finished", false, false⟩ [] rfl rfl rfl rfl
  exact ⟨h.1, h.2.2.1⟩

/-! ### C4: loop-replay law -/

/-- C4.  Loop-replay: with looping enabled and the template holding A then
B, both remote, and both downloads succeeding with local (non-remote)
paths, the first pass fetches and plays A then B — mutating each item's
link in place, which is visible through the template because both queues
reference the same objects — after which the refill copies the template
into the pending queue and the next two pops yield A then B again, in the
same relative order, played directly from the fetched local paths (no
second fetch events): the heap holds the fetched paths and the template
still lists A before B. -/
theorem loop_replay (uA lA uB lB pA pB : String)
    (hA : isRemote lA = true) (hB : isRemote lB = true)
    (hpA : isRemote pA = false) (hpB : isRemote pB = false) :
    (playLoop (replayEnv pA pB) (twoItemState uA lA uB lB)).2
      = [.fetched 0 pA, .played 0 pA, .fetched 1 pB, .played 1 pB,
         .played 0 pA, .played 1 pB]
    ∧ (playLoop (replayEnv pA pB) (twoItemState uA lA uB lB)).1.heap
      = [⟨uA, pA⟩, ⟨uB, pB⟩]
    ∧ (playLoop (replayEnv pA pB) (twoItemState uA lA uB lB)).1.originalQueue
      = [0, 1]
    ∧ (playLoop (replayEnv pA pB) (twoItemState uA lA uB lB)).1.videoQueue
      = [] := by
  simp [playLoop, loopIter, replayEnv, twoItemState, initState, hA, hB, hpA, hpB,
    playVideoWithConnection, loopExit, cleanupStreamStatus, stopCommand]

/-- Witness for C4 with concrete remote links and local paths. -/
theorem loop_replay_witness :
    (playLoop (replayEnv "videos/a.mp4" "videos/b.mp4")
        (twoItemState "A1" "http://a" "B1" "http://b")).2
      = [.fetched 0 "videos/a.mp4", .played 0 "videos/a.mp4",
         .fetched 1 "videos/b.mp4", .played 1 "videos/b.mp4",
         .played 0 "videos/a.mp4", .played 1 "videos/b.mp4"]
    ∧ (playLoop (replayEnv "videos/a.mp4" "videos/b.mp4")
        (twoItemState "A1" "http://a" "B1" "http://b")).1.heap
      = [⟨"A1", "videos/a.mp4"⟩, ⟨"B1", "videos/b.mp4"⟩] := by
  have h := loop_replay "A1" "http://a" "B1" "http://b" "videos/a.mp4" "videos/b.mp4"
    (by decide) (by decide) (by decide) (by decide)
  exact ⟨h.1, h.2.1⟩

/-! ### C6: queue-pair invariant -/

theorem findIndex_lt_length (p : α → Bool) :
    ∀ (l : List α) (i : Nat), findIndex p l = some i → i < l.length := by
  intro l
  induction l with
  | nil => intro i h; simp [findIndex] at h
  | cons a t ih =>
    intro i h
    cases hpa : p a with
    | true =>
      simp [findIndex, hpa] at h
      simp [← h]
    | false =>
      simp [findIndex, hpa] at h
      obtain ⟨j, hj, hji⟩ := h
      cases hji
      simpa [Nat.succ_lt_succ_iff] using ih j hj

theorem drop_eraseIdx_add : ∀ (k i : Nat) (l : List α),
    (l.eraseIdx (k + i)).drop k = (l.drop k).eraseIdx i := by
  intro k
  induction k with
  | zero => intro i l; simp
  | succ k ih =>
    intro i l
    cases l with
    | nil => simp [List.eraseIdx]
    | cons a t =>
      have harith : (k + 1) + i = (k + i) + 1 := by omega
      rw [harith]
      simp only [List.eraseIdx_cons_succ, List.drop_succ_cons]
      exact ih i t

theorem drop_min_length (l : List α) (n : Nat) :
    l.drop n = l.drop (min n l.length) := by
  rcases le_total n l.length with h | h
  · rw [min_eq_left h]
  · rw [min_eq_right h, List.drop_eq_nil_of_le h, List.drop_length]

theorem match_unique (s : SysState)
    (hU : (s.heap.map Item.uid).Nodup) (hQ : s.originalQueue.Nodup)
    (hB : ∀ i ∈ s.originalQueue, i < s.heap.length)
    (uid : String) (a b : Nat)
    (ha : a < s.originalQueue.length) (hb : b < s.originalQueue.length)
    (hpa : uidAt s (s.originalQueue.getD a 0) = uid)
    (hpb : uidAt s (s.originalQueue.getD b 0) = uid) : a = b := by
  have hga : s.originalQueue.getD a 0 = s.originalQueue[a] := by
    rw [List.getD_eq_getElem?_getD, List.getElem?_eq_getElem ha]; rfl
  have hgb : s.originalQueue.getD b 0 = s.originalQueue[b] := by
    rw [List.getD_eq_getElem?_getD, List.getElem?_eq_getElem hb]; rfl
  have hxa : s.originalQueue[a] < s.heap.length := hB _ (List.getElem_mem ha)
  have hxb : s.originalQueue[b] < s.heap.length := hB _ (List.getElem_mem hb)
  have hxa' : s.originalQueue[a] < (s.heap.map Item.uid).length := by simpa using hxa
  have hxb' : s.originalQueue[b] < (s.heap.map Item.uid).length := by simpa using hxb
  have hua : (s.heap.map Item.uid)[s.originalQueue[a]] = uid := by
    rw [List.getElem_map]
    have hval := hpa
    rw [hga] at hval
    simpa [uidAt, List.getD_eq_getElem?_getD, List.getElem?_eq_getElem hxa] using hval
  have hub : (s.heap.map Item.uid)[s.originalQueue[b]] = uid := by
    rw [List.getElem_map]
    have hval := hpb
    rw [hgb] at hval
    simpa [uidAt, List.getD_eq_getElem?_getD, List.getElem?_eq_getElem hxb] using hval
  have hxy : s.originalQueue[a] = s.originalQueue[b] :=
    (List.Nodup.getElem_inj_iff hU).mp (hua.trans hub.symm)
  exact (List.Nodup.getElem_inj_iff hQ).mp hxy

theorem reach_sublist (s : SysState) (h : Reach s) :
    s.videoQueue.Sublist s.originalQueue := by
  induction h with
  | init => simp [initState]
  | @add uid link s' hr ih =>
    simp only [addCommand]
    exact List.Sublist.append ih (List.Sublist.refl _)
  | @remove uid s' hr ih =>
    rcases hfi : findIndex (fun i => uidAt s' i == uid) s'.videoQueue with _ | i <;>
      rcases hfj : findIndex (fun i => uidAt s' i == uid) s'.originalQueue with _ | j
    case none.none | none.some =>
      have hr2 : removeCommand uid s' = (s', .notFound) := by
        unfold removeCommand; rw [hfi, hfj]
      rw [hr2]; exact ih
    case some.none =>
      have hr2 : removeCommand uid s' = (s', .notFound) := by
        unfold removeCommand; rw [hfi, hfj]
      rw [hr2]; exact ih
    case some.some =>
      have hr2 : (removeCommand uid s').1
          = { s' with videoQueue := s'.videoQueue.eraseIdx i,
                      originalQueue := s'.originalQueue.eraseIdx j } := by
        unfold removeCommand; rw [hfi, hfj]
      rw [hr2]
      show (s'.videoQueue.eraseIdx i).Sublist (s'.originalQueue.eraseIdx j)
      rw [eraseIdx_findIndex_eq_eraseP _ _ _ hfi, eraseIdx_findIndex_eq_eraseP _ _ _ hfj]
      exact List.Sublist.eraseP ih
  | @pop s' hr ih =>
    exact (List.tail_sublist _).trans ih
  | @refill s' hr hv hl ho ih =>
    exact List.Sublist.refl _
  | @clear s' hr ih =>
    simp [stopCommand, cleanupStreamStatus]

theorem reachU_inv (s : SysState) (h : ReachU s) :
    (∃ k, k ≤ s.originalQueue.length ∧ s.videoQueue = s.originalQueue.drop k)
    ∧ s.originalQueue.Nodup
    ∧ (∀ i ∈ s.originalQueue, i < s.heap.length)
    ∧ (s.heap.map Item.uid).Nodup := by
  induction h with
  | init =>
    exact ⟨⟨0, by simp [initState], rfl⟩, by simp [initState],
      by simp [initState], by simp [initState]⟩
  | @add uid link s' hr hfresh ih =>
    obtain ⟨⟨k, hk, hv⟩, hnd, hb, hU⟩ := ih
    refine ⟨⟨k, ?_, ?_⟩, ?_, ?_, ?_⟩
    · simp only [addCommand, List.length_append, List.length_cons, List.length_nil]
      omega
    · show s'.videoQueue ++ [s'.heap.length]
        = (s'.originalQueue ++ [s'.heap.length]).drop k
      rw [List.drop_append_of_le_length hk, hv]
    · show (s'.originalQueue ++ [s'.heap.length]).Nodup
      have hnotin : s'.heap.length ∉ s'.originalQueue :=
        fun hmem => absurd (hb _ hmem) (lt_irrefl _)
      simp [List.nodup_append, hnd, hnotin]
    · intro i hi
      simp only [addCommand, List.length_append, List.length_cons, List.length_nil] at hi ⊢
      rcases List.mem_append.mp hi with h1 | h1
      · have := hb _ h1; omega
      · simp at h1; omega
    · show ((s'.heap ++ [Item.mk uid link]).map Item.uid).Nodup
      rw [List.map_append]
      simp [List.nodup_append, hU, hfresh]
  | @remove uid s' hr ih =>
    obtain ⟨⟨k, hk, hv⟩, hnd, hb, hU⟩ := ih
    rcases hfi : findIndex (fun i => uidAt s' i == uid) s'.videoQueue with _ | i <;>
      rcases hfj : findIndex (fun i => uidAt s' i == uid) s'.originalQueue with _ | j
    case none.none | none.some =>
      have hr2 : removeCommand uid s' = (s', .notFound) := by
        unfold removeCommand; rw [hfi, hfj]
      rw [hr2]; exact ⟨⟨k, hk, hv⟩, hnd, hb, hU⟩
    case some.none =>
      have hr2 : removeCommand uid s' = (s', .notFound) := by
        unfold removeCommand; rw [hfi, hfj]
      rw [hr2]; exact ⟨⟨k, hk, hv⟩, hnd, hb, hU⟩
    case some.some =>
      have hr2 : (removeCommand uid s').1
          = { s' with videoQueue := s'.videoQueue.eraseIdx i,
                      originalQueue := s'.originalQueue.eraseIdx j } := by
        unfold removeCommand; rw [hfi, hfj]
      rw [hr2]
      have hilen : i < s'.videoQueue.length := findIndex_lt_length _ _ _ hfi
      have hjlen : j < s'.originalQueue.length := findIndex_lt_length _ _ _ hfj
      have hki : k + i < s'.originalQueue.length := by
        have hlt : i < (s'.originalQueue.drop k).length := by rw [← hv]; exact hilen
        rw [List.length_drop] at hlt
        omega
      have hpi := findIndex_getD (fun x => uidAt s' x == uid) 0 _ _ hfi
      have hpj := findIndex_getD (fun x => uidAt s' x == uid) 0 _ _ hfj
      have hgd : s'.videoQueue.getD i 0 = s'.originalQueue.getD (k + i) 0 := by
        rw [hv]
        simp [List.getD_eq_getElem?_getD, List.getElem?_drop]
      have hpi' : uidAt s' (s'.originalQueue.getD (k + i) 0) = uid := by
        rw [← hgd]; simpa using hpi
      have hpj' : uidAt s' (s'.originalQueue.getD j 0) = uid := by simpa using hpj
      have hjk : j = k + i := match_unique s' hU hnd hb uid j (k + i) hjlen hki hpj' hpi'
      have hlen : (s'.originalQueue.eraseIdx j).length = s'.originalQueue.length - 1 := by
        rw [List.length_eraseIdx_of_lt hjlen]
      refine ⟨⟨k, ?_, ?_⟩, ?_, ?_, hU⟩
      · rw [hlen]; omega
      · show s'.videoQueue.eraseIdx i = (s'.originalQueue.eraseIdx j).drop k
        rw [hjk, drop_eraseIdx_add, ← hv]
      · exact (List.eraseIdx_sublist _ _).nodup hnd
      · intro x hx
        exact hb x ((List.eraseIdx_sublist _ _).subset hx)
  | @pop s' hr ih =>
    obtain ⟨⟨k, hk, hv⟩, hnd, hb, hU⟩ := ih
    refine ⟨⟨min (k + 1) s'.originalQueue.length, min_le_right _ _, ?_⟩, hnd, hb, hU⟩
    show s'.videoQueue.tail = s'.originalQueue.drop (min (k + 1) s'.originalQueue.length)
    rw [hv, List.tail_drop, drop_min_length]
  | @refill s' hr hv hl ho ih =>
    obtain ⟨_, hnd, hb, hU⟩ := ih
    exact ⟨⟨0, Nat.zero_le _, rfl⟩, hnd, hb, hU⟩
  | @clear s' hr ih =>
    obtain ⟨_, _, _, hU⟩ := ih
    refine ⟨⟨0, ?_, ?_⟩, ?_, ?_, ?_⟩ <;>
      simp [stopCommand, cleanupStreamStatus, hU]

/-- C6.  Queue-pair invariant: in every state reachable by enqueue (add or
batch), pop-front, removeById, refill-from-template and clear, the pending
queue is an order-preserving subset (a sublist) of the template, so every
uid occurring in `pending` also occurs in `template`; and along runs whose
generated uids are fresh (the spec's uniqueness assumption on ids within
the template), the pending queue is moreover literally a suffix of the
template. -/
theorem queue_pair_invariant :
    (∀ s : SysState, Reach s →
      s.videoQueue.Sublist s.originalQueue
      ∧ ∀ u ∈ pendingUids s, u ∈ templateUids s)
    ∧ (∀ s : SysState, ReachU s → s.videoQueue <:+ s.originalQueue) := by
  constructor
  · intro s h
    have hsub := reach_sublist s h
    exact ⟨hsub, fun u hu => (hsub.map (uidAt s)).subset hu⟩
  · intro s h
    obtain ⟨⟨k, hk, hv⟩, _, _, _⟩ := reachU_inv s h
    rw [hv]
    exact List.drop_suffix k _

/-- Witness for C6 at a concrete two-add state with fresh uids. -/
theorem queue_pair_invariant_witness :
    ((addCommand "22222BBB" "http://b" (addCommand "11111AAA" "vid.mp4" initState)).videoQueue.Sublist
      (addCommand "22222BBB" "http://b" (addCommand "11111AAA" "vid.mp4" initState)).originalQueue)
    ∧ ((addCommand "22222BBB" "http://b" (addCommand "11111AAA" "vid.mp4" initState)).videoQueue
        <:+ (addCommand "22222BBB" "http://b" (addCommand "11111AAA" "vid.mp4" initState)).originalQueue) := by
  have hR : Reach (addCommand "22222BBB" "http://b" (addCommand "11111AAA" "vid.mp4" initState)) :=
    Reach.add _ _ (Reach.add _ _ Reach.init)
  have hRU : ReachU (addCommand "22222BBB" "http://b" (addCommand "11111AAA" "vid.mp4" initState)) :=
    ReachU.add _ _ (ReachU.add _ _ ReachU.init (by simp [initState])) (by decide)
  exact ⟨(queue_pair_invariant.1 _ hR).1, queue_pair_invariant.2 _ hRU⟩

end StreamBot
